import Mathlib

/-!
Verification development for the cryptogreed repository.

The repository ships two variants of the same analyzer module:
src/api/analyze.js (wired by src/index.js; no identity resolution, no
cache eviction) and the fuller variant in src/unnamed/part_001 (identity
resolution, conditional fetchers, setTimeout-based TTL eviction).  Both
are embedded below: the score functions, validation patterns and rate
limiter are shared verbatim between the two files; the orchestration is
embedded twice, as analyzeSimple (src/api/analyze.js, lines 186-233) and
analyze (src/unnamed/part_001, second copy, lines 538-627).

Numbers: the JavaScript arithmetic used by the score functions is total
over IEEE doubles, and the behaviours at stake (NaN from 0/0, signed
infinities from division by zero, their propagation through Math.min,
Math.max and Math.round) are exact and independent of binary64 rounding.
They are modelled by the type JsNum below: NaN, the two infinities, or a
finite rational.  Finite arithmetic is exact rational arithmetic; every
claim settled here depends only on the NaN/infinity structure or on
values exactly representable, never on binary64 rounding error.

Upstream I/O: each fetcher maps a provider payload onto a snapshot
record.  No claim depends on the payload-parsing internals, so the
environment (Env) supplies the already-mapped snapshots together with a
duration for each call; Date.now() is the clock field of the analyzer
state, advanced by those durations.  Timestamps are naturals (ms); the
ISO timestamp string of a result is modelled by the clock value at which
it is produced.  The sha256 cache key of the string
coinId ++ ":" ++ contractAddress ++ ":" ++ chain is modelled by that
string itself (the digest is injective on the inputs that occur).
-/

/-- A JavaScript number as it flows through the score functions: NaN,
+Infinity, -Infinity, or a finite value (modelled as an exact rational;
see the header note on binary64 rounding). -/
inductive JsNum where
  | nan : JsNum
  | inf : JsNum
  | ninf : JsNum
  | fin (q : ℚ) : JsNum
deriving DecidableEq

/-- Embed a rational as a finite JavaScript number. -/
def jsFin (q : ℚ) : JsNum := .fin q

/-- JavaScript addition on JsNum (Infinity + -Infinity is NaN). -/
def jsAdd : JsNum → JsNum → JsNum
  | .nan, _ => .nan
  | _, .nan => .nan
  | .inf, .ninf => .nan
  | .ninf, .inf => .nan
  | .inf, _ => .inf
  | _, .inf => .inf
  | .ninf, _ => .ninf
  | _, .ninf => .ninf
  | .fin a, .fin b => .fin (a + b)

/-- JavaScript negation on JsNum. -/
def jsNeg : JsNum → JsNum
  | .nan => .nan
  | .inf => .ninf
  | .ninf => .inf
  | .fin q => .fin (-q)

/-- JavaScript subtraction on JsNum (Infinity - Infinity is NaN). -/
def jsSub (a b : JsNum) : JsNum := jsAdd a (jsNeg b)

/-- JavaScript multiplication on JsNum (Infinity * 0 is NaN). -/
def jsMul : JsNum → JsNum → JsNum
  | .nan, _ => .nan
  | _, .nan => .nan
  | .inf, .inf => .inf
  | .inf, .ninf => .ninf
  | .ninf, .inf => .ninf
  | .ninf, .ninf => .inf
  | .inf, .fin q => if 0 < q then .inf else if q < 0 then .ninf else .nan
  | .fin q, .inf => if 0 < q then .inf else if q < 0 then .ninf else .nan
  | .ninf, .fin q => if 0 < q then .ninf else if q < 0 then .inf else .nan
  | .fin q, .ninf => if 0 < q then .ninf else if q < 0 then .inf else .nan
  | .fin a, .fin b => .fin (a * b)

/-- JavaScript division on JsNum: 0/0 is NaN, x/0 is a signed infinity
for finite nonzero x (the divisor 0 is +0 here), finite/infinite is 0
(the sign of a zero is not tracked; nothing downstream reads it). -/
def jsDiv : JsNum → JsNum → JsNum
  | .nan, _ => .nan
  | _, .nan => .nan
  | .inf, .inf => .nan
  | .inf, .ninf => .nan
  | .ninf, .inf => .nan
  | .ninf, .ninf => .nan
  | .inf, .fin q => if q < 0 then .ninf else .inf
  | .ninf, .fin q => if q < 0 then .inf else .ninf
  | .fin _, .inf => .fin 0
  | .fin _, .ninf => .fin 0
  | .fin a, .fin b =>
      if b = 0 then (if a = 0 then .nan else if 0 < a then .inf else .ninf)
      else .fin (a / b)

/-- Math.min on two JsNum values: NaN-absorbing, otherwise the smaller. -/
def jsMin : JsNum → JsNum → JsNum
  | .nan, _ => .nan
  | _, .nan => .nan
  | .ninf, _ => .ninf
  | _, .ninf => .ninf
  | .inf, b => b
  | a, .inf => a
  | .fin a, .fin b => .fin (min a b)

/-- Math.max on two JsNum values: NaN-absorbing, otherwise the larger. -/
def jsMax : JsNum → JsNum → JsNum
  | .nan, _ => .nan
  | _, .nan => .nan
  | .inf, _ => .inf
  | _, .inf => .inf
  | .ninf, b => b
  | a, .ninf => a
  | .fin a, .fin b => .fin (max a b)

/-- Math.abs on JsNum. -/
def jsAbs : JsNum → JsNum
  | .nan => .nan
  | .inf => .inf
  | .ninf => .inf
  | .fin q => .fin |q|

/-- Math.round on JsNum: half away from negative infinity (floor of
x + 1/2) on finite values; NaN and the infinities map to themselves. -/
def jsRound : JsNum → JsNum
  | .nan => .nan
  | .inf => .inf
  | .ninf => .ninf
  | .fin q => .fin (⌊q + 1/2⌋ : ℤ)

instance : Add JsNum := ⟨jsAdd⟩
instance : Sub JsNum := ⟨jsSub⟩
instance : Mul JsNum := ⟨jsMul⟩
instance : Div JsNum := ⟨jsDiv⟩
instance : Neg JsNum := ⟨jsNeg⟩
instance : OfNat JsNum n := ⟨.fin (OfNat.ofNat n)⟩

/-- Math.log10 applied to a natural-number holder count.  Exact at 0
(JavaScript gives -Infinity) and at exact powers of ten; at other counts
the model takes the integer part Nat.log 10 n, which is an
under-approximation since log10 is then irrational.  No theorem in this
file evaluates it away from 0, 1 and powers of ten, and no claim depends
on its value there. -/
def jsLog10Nat : ℕ → JsNum
  | 0 => .ninf
  | n + 1 => .fin ((Nat.log 10 (n + 1) : ℤ) : ℚ)

/-- MarketSnapshot as mapped from the market-data provider response by
_fetchCoinGeckoData (both variants, identical): note avg_volume_7d and
avg_price_7d are derived fields, filled by mkMarket below.  The unused
contract_address field of the JS object (read by no score or result
field) is omitted. -/
structure MarketSnapshot where
  current_price : ℚ
  price_change_percentage_24h : ℚ
  market_cap : ℚ
  volume_24h : ℚ
  circulating_supply : ℚ
  total_supply : ℚ
  avg_volume_7d : ℚ
  avg_price_7d : ℚ
deriving DecidableEq

/-- HolderDistribution snapshot (fields read by the score functions).
The Solana fetcher of part_001 additionally carries activity counters
(active_wallets_24h, tx_count_24h, unique_receivers_24h) that no score
or result field ever reads; they are omitted. -/
structure HolderDist where
  top_1_pct : ℚ
  top_10_pct : ℚ
  top_100_pct : ℚ
  top_10_holders : ℚ
  retail_pct : ℚ
  total_holders : ℕ
deriving DecidableEq

/-- LiquiditySnapshot as mapped by _fetchDexScreenerData. -/
structure DexSnap where
  liquidity : ℚ
  top_5_pool_concentration : ℚ
deriving DecidableEq

/-- The zero-valued holder snapshot substituted for native coins
(part_001 lines 582-585). -/
def zeroHolder : HolderDist :=
  ⟨0, 0, 0, 0, 0, 0⟩

/-- The zero-valued liquidity snapshot substituted for native coins
(part_001 line 586). -/
def zeroDex : DexSnap := ⟨0, 0⟩

/-- _calculateGreedScore (src/api/analyze.js lines 46-51; identical in
part_001 lines 404-409). -/
def calculateGreedScore (m : MarketSnapshot) (c : HolderDist) : JsNum :=
  let volumeSpike :=
    jsMin 100 ((jsFin m.volume_24h / jsFin m.avg_volume_7d - 1) * jsFin 40)
  let priceSurge :=
    jsMin 100 ((jsFin m.current_price / jsFin m.avg_price_7d - 1) * jsFin 100)
  let whaleDominance := jsMin 100 (jsFin c.top_10_holders * jsFin (3/2))
  jsRound (volumeSpike * jsFin (1/4) + priceSurge * jsFin (3/10) +
    whaleDominance * jsFin (1/4))

/-- _calculateDecentralization (src/api/analyze.js lines 53-56; identical
in part_001 lines 411-414). -/
def calculateDecentralization (c : HolderDist) : JsNum :=
  let weighted := jsFin c.top_1_pct * jsFin (13/20) +
    jsFin c.top_10_pct * jsFin (1/4) + jsFin c.top_100_pct * jsFin (1/10)
  jsRound (jsMax 0 (jsFin 100 - weighted))

/-- _calculateRetailScore of src/api/analyze.js lines 58-61: the holder
count enters Math.log10 unguarded (log10 0 = -Infinity). -/
def calculateRetailScore (c : HolderDist) : JsNum :=
  let holderFactor := jsMin 10 (jsLog10Nat c.total_holders) * jsFin 2
  jsRound (jsMax 0 (jsFin c.retail_pct * jsFin (3/2) -
    jsFin c.top_1_pct * jsFin (4/5) + holderFactor))

/-- _calculateRetailScore of part_001 lines 416-419: total_holders is
guarded by the JavaScript truthiness default (c.total_holders or 1). -/
def calculateRetailScoreP1 (c : HolderDist) : JsNum :=
  let th := if c.total_holders = 0 then 1 else c.total_holders
  let holderFactor := jsMin 10 (jsLog10Nat th) * jsFin 2
  jsRound (jsMax 0 (jsFin c.retail_pct * jsFin (3/2) -
    jsFin c.top_1_pct * jsFin (4/5) + holderFactor))

/-- _calculateVolatility (src/api/analyze.js lines 63-67; identical in
part_001 lines 421-425). -/
def calculateVolatility (m : MarketSnapshot) : JsNum :=
  let priceChange := jsAbs (jsFin m.price_change_percentage_24h)
  let volumeRatio := jsFin m.volume_24h / jsFin m.market_cap
  jsRound (jsMin 100 (priceChange * jsFin (3/2) + (1 - volumeRatio) * jsFin 30))

/-- _calculateLiquidity (src/api/analyze.js lines 69-75; identical in
part_001 lines 427-433). -/
def calculateLiquidity (m : MarketSnapshot) (d : DexSnap) : JsNum :=
  let liquidityRatio := jsFin d.liquidity / jsFin m.market_cap
  let multiplier : ℚ :=
    if m.market_cap < 100000000 then 200
    else if m.market_cap > 1000000000 then 150
    else 175
  jsRound (jsMin 100 (liquidityRatio * jsFin multiplier))

/-- One character of the COIN_ID pattern, lowercase alphanumeric or
hyphen. -/
def isCoinIdChar (ch : Char) : Bool :=
  (decide ('a' ≤ ch) && decide (ch ≤ 'z')) ||
    (decide ('0' ≤ ch) && decide (ch ≤ '9')) || decide (ch = '-')

/-- The COIN_ID validation pattern, one or more of [a-z0-9-]. -/
def isCoinIdStr (s : String) : Bool :=
  decide (0 < s.length) && s.all isCoinIdChar

/-- A hexadecimal digit, either case. -/
def isHexChar (ch : Char) : Bool :=
  (decide ('0' ≤ ch) && decide (ch ≤ '9')) ||
    (decide ('a' ≤ ch) && decide (ch ≤ 'f')) ||
    (decide ('A' ≤ ch) && decide (ch ≤ 'F'))

/-- The CONTRACT_ADDRESS pattern: 0x followed by exactly 40 hex digits. -/
def isEthAddress (s : String) : Bool :=
  decide (s.length = 42) && decide (s.take 2 = "0x") && (s.drop 2).all isHexChar

/-- One character of the base-58 alphabet used by SOLANA_ADDRESS. -/
def isBase58Char (ch : Char) : Bool :=
  (decide ('1' ≤ ch) && decide (ch ≤ '9')) ||
    (decide ('A' ≤ ch) && decide (ch ≤ 'Z') && decide (ch ≠ 'I') &&
      decide (ch ≠ 'O')) ||
    (decide ('a' ≤ ch) && decide (ch ≤ 'z') && decide (ch ≠ 'l'))

/-- The SOLANA_ADDRESS pattern: 32 to 44 base-58 characters. -/
def isSolAddress (s : String) : Bool :=
  decide (32 ≤ s.length) && decide (s.length ≤ 44) && s.all isBase58Char

/-- _validateInput of part_001 (second copy, lines 390-401): each check
runs only when the corresponding field is truthy (nonempty), and the
errors are collected, not short-circuited.  Returns the error list; the
code throws when it is nonempty. -/
def validateErrors (coinId contractAddress chain : String) : List String :=
  (if coinId ≠ "" ∧ isCoinIdStr coinId = false
    then ["Invalid coin ID format"] else []) ++
  (if contractAddress ≠ "" ∧ chain = "eth" ∧ isEthAddress contractAddress = false
    then ["Invalid Ethereum contract address"] else []) ++
  (if contractAddress ≠ "" ∧ chain = "sol" ∧ isSolAddress contractAddress = false
    then ["Invalid Solana token address"] else [])

/-- _validateInput of src/api/analyze.js lines 38-44: the coinId check is
unconditional and the address checks are keyed on the chain only. -/
def validateErrorsStrict (coinId contractAddress chain : String) : List String :=
  (if isCoinIdStr coinId = false then ["Invalid coin ID format"] else []) ++
  (if chain = "eth" ∧ isEthAddress contractAddress = false
    then ["Invalid Ethereum contract address"] else []) ++
  (if chain = "sol" ∧ isSolAddress contractAddress = false
    then ["Invalid Solana token address"] else [])

/-- The message thrown by _validateInput from a nonempty error list. -/
def validationMessage (errs : List String) : String :=
  "Validation failed: " ++ String.intercalate ", " errs

/-- Whether a recorded timestamp t is inside the trailing 60-second
window ending at now: the code keeps t with t strictly greater than
now - 60000 (computed in JavaScript over signed numbers). -/
def inWindow (now t : ℕ) : Bool :=
  decide ((now : ℤ) - 60000 < (t : ℤ))

/-- _checkRateLimit core (src/api/analyze.js lines 174-184; identical in
part_001 lines 526-535): drop timestamps outside the window, append the
current time (also on a denied call), and deny when more than 100
timestamps remain.  Returns (admitted, new stored list). -/
def checkRateLimit (now : ℕ) (ts : List ℕ) : Bool × List ℕ :=
  let kept := ts.filter (inWindow now)
  let arr := kept ++ [now]
  (decide (arr.length ≤ 100), arr)

/-- Repeated _checkRateLimit calls for one client at the given times,
threading the stored timestamp list; returns the admission verdicts in
order and the final stored list. -/
def limiterRun (times : List ℕ) : List Bool × List ℕ :=
  times.foldl
    (fun acc t =>
      let step := checkRateLimit t acc.2
      (acc.1 ++ [step.1], step.2))
    ([], [])

/-- Look up an association list by string key (Map.get). -/
def getAssoc (m : List (String × α)) (k : String) : Option α :=
  (m.find? (fun p => p.1 = k)).map Prod.snd

/-- Replace or insert a binding in an association list (Map.set). -/
def setAssoc (m : List (String × α)) (k : String) (v : α) : List (String × α) :=
  m.filter (fun p => ¬ (p.1 = k)) ++ [(k, v)]

/-- The basic block of a successful result (part_001 lines 592-599;
the src/api/analyze.js variant lines 201-207 has no name field, which is
modelled by name = coinId there). -/
structure BasicBlock where
  name : String
  price : ℚ
  price_change_24h : ℚ
  market_cap : ℚ
  volume_24h : ℚ
  contract_address : String
deriving DecidableEq

/-- The five scores of a result. -/
structure Scores where
  greed : JsNum
  decentralization : JsNum
  retail : JsNum
  volatility : JsNum
  liquidity : JsNum
deriving DecidableEq

/-- A successful AnalysisResult value. -/
structure OkResult where
  basic : BasicBlock
  scores : Scores
  processingTime : ℕ
  timestamp : ℕ
  fromCache : Bool
deriving DecidableEq

/-- The value returned by analyze: a success record, or the error-shaped
record built in the catch block, carrying the thrown message together
with processingTime and timestamp. -/
inductive AnalysisResult where
  | ok (r : OkResult) : AnalysisResult
  | err (message : String) (processingTime : ℕ) (timestamp : ℕ) : AnalysisResult
deriving DecidableEq

/-- Whether a result is flagged fromCache (an error result never is). -/
def isFromCacheB : AnalysisResult → Bool
  | .ok r => r.fromCache
  | .err _ _ _ => false

/-- Whether a result is the error shape. -/
def isErrB : AnalysisResult → Bool
  | .ok _ => false
  | .err _ _ _ => true

/-- Observable steps of one analyze invocation, in the order they are
performed; used to state ordering claims. -/
inductive Event where
  | resolveSearch : Event
  | resolveInfo : Event
  | resolveLookup : Event
  | validateEv : Event
  | rateCheckEv (admitted : Bool) : Event
  | cacheHitEv : Event
  | fetchMarket : Event
  | fetchChain : Event
  | fetchDex : Event
  | cacheStoreEv : Event
deriving DecidableEq, BEq

/-- Mutable per-process analyzer state: the result cache, the pending
setTimeout eviction timers of part_001 (due time and key), the
per-client rate windows, and the current Date.now() clock. -/
structure AnalyzerState where
  cache : List (String × OkResult)
  timers : List (ℕ × String)
  requestCounts : List (String × List ℕ)
  clock : ℕ
deriving DecidableEq

/-- Advance the clock by d milliseconds between calls. -/
def tick (d : ℕ) (st : AnalyzerState) : AnalyzerState :=
  { st with clock := st.clock + d }

/-- Run every due setTimeout callback: each deletes its key from the
cache (part_001 line 614).  The event loop runs due timers before the
next request handler. -/
def fireTimers (st : AnalyzerState) : AnalyzerState :=
  let due := st.timers.filter (fun p => decide (p.1 ≤ st.clock))
  { st with
    timers := st.timers.filter (fun p => decide (st.clock < p.1)),
    cache := st.cache.filter (fun e => ¬ due.any (fun p => p.2 = e.1)) }

/-- The raw market-data provider payload fields that _fetchCoinGeckoData
reads (market_data of the response). -/
structure RawMarket where
  price : ℚ
  change24h : ℚ
  marketCap : ℚ
  volume24h : ℚ
  circulating : ℚ
  total : ℚ
deriving DecidableEq

/-- The mapping _fetchCoinGeckoData applies to the provider payload
(both variants, identical): avg_volume_7d is total volume over seven and
avg_price_7d is the current price. -/
def mkMarket (r : RawMarket) : MarketSnapshot :=
  { current_price := r.price
    price_change_percentage_24h := r.change24h
    market_cap := r.marketCap
    volume_24h := r.volume24h
    circulating_supply := r.circulating
    total_supply := r.total
    avg_volume_7d := r.volume24h / 7
    avg_price_7d := r.price }

/-- The external world one process run sees: the configuration flag
ENCRYPT_CACHE, each upstream endpoint as a function from its request to
either a mapped snapshot or the message of the error thrown by its
fetcher, and the wall-clock duration of each call in milliseconds. -/
structure Env where
  encryptCache : Bool
  search : String → Except String String
  slugInfo : String → Except String (Option (String × String))
  contractLookup : String → String → Except String String
  market : String → Except String RawMarket
  ethHolders : String → Except String HolderDist
  solHolders : String → Except String HolderDist
  dex : String → Except String DexSnap
  searchDur : ℕ
  infoDur : ℕ
  lookupDur : ℕ
  marketDur : ℕ
  chainDur : ℕ
  dexDur : ℕ

/-- The chain-specific holder fetch choice (part_001 lines 576-578). -/
def chainFetch (env : Env) (chain addr : String) : Except String HolderDist :=
  if chain = "eth" then env.ethHolders addr else env.solHolders addr

/-- The scores block as built by part_001 lines 600-606. -/
def mkScoresP1 (m : MarketSnapshot) (h : HolderDist) (d : DexSnap) : Scores :=
  { greed := calculateGreedScore m h
    decentralization := calculateDecentralization h
    retail := calculateRetailScoreP1 h
    volatility := calculateVolatility m
    liquidity := calculateLiquidity m d }

/-- The scores block as built by src/api/analyze.js lines 208-214 (its
retail score has no holder-count guard). -/
def mkScoresJs (m : MarketSnapshot) (h : HolderDist) (d : DexSnap) : Scores :=
  { greed := calculateGreedScore m h
    decentralization := calculateDecentralization h
    retail := calculateRetailScore h
    volatility := calculateVolatility m
    liquidity := calculateLiquidity m d }

/-- The cache key preimage coinId:contractAddress:chain (the sha256
digest is modelled by the string itself, see the header). -/
def cacheKey (coinId addr chain : String) : String :=
  coinId ++ ":" ++ addr ++ ":" ++ chain

/-- The parallel fetch phase of part_001 (lines 571-589): the market
fetch is launched unconditionally; the holder/chain fetch and the
liquidity fetch are launched only when both a contract address and a
chain are present, otherwise the zero-valued snapshots stand in.  The
returned clock is advanced by the longest launched fetch (Promise.all
waits for the slowest; on rejection the advance is approximated by the
same bound, and among several rejections the first in positional order
supplies the message - no claim depends on either choice). -/
def aggregate (env : Env) (clock : ℕ) (coinId addr chain : String) :
    Except String (MarketSnapshot × HolderDist × DexSnap) × ℕ × List Event :=
  if addr ≠ "" ∧ chain ≠ "" then
    let clock := clock + max env.marketDur (max env.chainDur env.dexDur)
    let tr := [Event.fetchMarket, Event.fetchChain, Event.fetchDex]
    match env.market coinId, chainFetch env chain addr, env.dex addr with
    | .ok m, .ok h, .ok d => (.ok (mkMarket m, h, d), clock, tr)
    | .error e, _, _ => (.error e, clock, tr)
    | .ok _, .error e, _ => (.error e, clock, tr)
    | .ok _, .ok _, .error e => (.error e, clock, tr)
  else
    let clock := clock + env.marketDur
    match env.market coinId with
    | .ok m => (.ok (mkMarket m, zeroHolder, zeroDex), clock, [Event.fetchMarket])
    | .error e => (.error e, clock, [Event.fetchMarket])

/-- Step 1 of the identity auto-fill of part_001 (lines 542-544): slug
from name when only a name is given.  Null and undefined string fields
are modelled by the empty string throughout (both are falsy). -/
def resolveStep1 (env : Env) (st : AnalyzerState) (coinId0 coinName : String) :
    Except String String × AnalyzerState × List Event :=
  if coinId0 = "" ∧ coinName ≠ "" then
    (env.search coinName, tick env.searchDur st, [Event.resolveSearch])
  else (.ok coinId0, st, [])

/-- Step 2 of the identity auto-fill (lines 546-550): contract address
and chain from the slug when either is missing; a field already present
wins over the looked-up one. -/
def resolveStep2 (env : Env) (st : AnalyzerState)
    (cid1 addr0 chain0 : String) :
    Except String (String × String) × AnalyzerState × List Event :=
  if (addr0 = "" ∨ chain0 = "") ∧ cid1 ≠ "" then
    match env.slugInfo cid1 with
    | .error m => (.error m, tick env.infoDur st, [Event.resolveInfo])
    | .ok info =>
      let ia := (info.map Prod.fst).getD ""
      let ic := (info.map Prod.snd).getD ""
      (.ok (if addr0 ≠ "" then addr0 else ia,
            if chain0 ≠ "" then chain0 else ic),
       tick env.infoDur st, [Event.resolveInfo])
  else (.ok (addr0, chain0), st, [])

/-- Step 3 of the identity auto-fill (lines 552-554): reverse lookup of
the slug from contract address and chain. -/
def resolveStep3 (env : Env) (st : AnalyzerState)
    (cid1 addr1 chain1 : String) :
    Except String String × AnalyzerState × List Event :=
  if cid1 = "" ∧ addr1 ≠ "" ∧ chain1 ≠ "" then
    match env.contractLookup addr1 chain1 with
    | .error m => (.error m, tick env.lookupDur st, [Event.resolveLookup])
    | .ok cid2 => (.ok cid2, tick env.lookupDur st, [Event.resolveLookup])
  else (.ok cid1, st, [])

/-- The identity auto-fill of part_001 (lines 541-554), the three steps
in sequence, each skipped when its output is already present; the first
thrown message aborts the rest.  Returns the completed triple or that
message, the state with the clock advanced by each issued call, and the
trace of issued calls. -/
def resolveIdentity (env : Env) (st : AnalyzerState)
    (coinId0 addr0 chain0 coinName : String) :
    Except String (String × String × String) × AnalyzerState × List Event :=
  match resolveStep1 env st coinId0 coinName with
  | (.error m, st1, tr1) => (.error m, st1, tr1)
  | (.ok cid1, st1, tr1) =>
    match resolveStep2 env st1 cid1 addr0 chain0 with
    | (.error m, st2, tr2) => (.error m, st2, tr1 ++ tr2)
    | (.ok (addr1, chain1), st2, tr2) =>
      match resolveStep3 env st2 cid1 addr1 chain1 with
      | (.error m, st3, tr3) => (.error m, st3, tr1 ++ tr2 ++ tr3)
      | (.ok cid2, st3, tr3) => (.ok (cid2, addr1, chain1), st3, tr1 ++ tr2 ++ tr3)

/-- The analyze method of part_001 (second copy, lines 538-627): fire
due eviction timers, auto-fill the identity, validate, check the rate
limit, consult the cache (returning the stored record with fromCache
set on a hit), fetch, score, store when ENCRYPT_CACHE is set (also
scheduling the TTL deletion timer), and catch every thrown message into
the error-shaped record.  Returns the result, the new state and the
event trace. -/
def analyze (env : Env) (st0 : AnalyzerState)
    (coinId0 addr0 chain0 clientId coinName : String) :
    AnalysisResult × AnalyzerState × List Event :=
  let st := fireTimers st0
  let t0 := st.clock
  match resolveIdentity env st coinId0 addr0 chain0 coinName with
  | (.error m, st1, tr1) => (.err m (st1.clock - t0) st1.clock, st1, tr1)
  | (.ok (cid, addr, ch), st1, tr1) =>
    let errs :=
      if addr ≠ "" ∧ ch ≠ "" then validateErrors cid addr ch
      else validateErrors cid "" ""
    let tr2 := tr1 ++ [Event.validateEv]
    if errs ≠ [] then
      (.err (validationMessage errs) (st1.clock - t0) st1.clock, st1, tr2)
    else
      let prev := (getAssoc st1.requestCounts clientId).getD []
      let rl := checkRateLimit st1.clock prev
      let st2 := { st1 with
        requestCounts := setAssoc st1.requestCounts clientId rl.2 }
      let tr3 := tr2 ++ [Event.rateCheckEv rl.1]
      if rl.1 = false then
        (.err "Rate limit exceeded" (st2.clock - t0) st2.clock, st2, tr3)
      else
        let key := cacheKey cid addr ch
        match getAssoc st2.cache key with
        | some c =>
          (.ok { c with fromCache := true }, st2, tr3 ++ [Event.cacheHitEv])
        | none =>
          match aggregate env st2.clock cid addr ch with
          | (.error m, clk, trF) =>
            (.err m (clk - t0) clk, { st2 with clock := clk }, tr3 ++ trF)
          | (.ok (m, hd, dx), clk, trF) =>
            let r : OkResult :=
              { basic :=
                  { name := if coinName ≠ "" then coinName else cid
                    price := m.current_price
                    price_change_24h := m.price_change_percentage_24h
                    market_cap := m.market_cap
                    volume_24h := m.volume_24h
                    contract_address := addr }
                scores := mkScoresP1 m hd dx
                processingTime := clk - t0
                timestamp := clk
                fromCache := false }
            if env.encryptCache then
              ( .ok r,
                { st2 with
                    clock := clk
                    cache := setAssoc st2.cache key r
                    timers := st2.timers ++ [(clk + 300000, key)] },
                tr3 ++ trF ++ [Event.cacheStoreEv])
            else (.ok r, { st2 with clock := clk }, tr3 ++ trF)

/-- The fetch phase of src/api/analyze.js lines 194-198: all three
fetchers are launched unconditionally. -/
def aggregateSimple (env : Env) (clock : ℕ) (coinId addr chain : String) :
    Except String (MarketSnapshot × HolderDist × DexSnap) × ℕ × List Event :=
  let clock := clock + max env.marketDur (max env.chainDur env.dexDur)
  let tr := [Event.fetchMarket, Event.fetchChain, Event.fetchDex]
  match env.market coinId, chainFetch env chain addr, env.dex addr with
  | .ok m, .ok h, .ok d => (.ok (mkMarket m, h, d), clock, tr)
  | .error e, _, _ => (.error e, clock, tr)
  | .ok _, .error e, _ => (.error e, clock, tr)
  | .ok _, .ok _, .error e => (.error e, clock, tr)

/-- The analyze method of src/api/analyze.js lines 186-233: validate,
check the rate limit, consult the cache, fetch all three sources, score
(with the unguarded retail formula), store when ENCRYPT_CACHE is set -
with no eviction timer: this variant never deletes a cache entry - and
catch every thrown message into the error-shaped record.  There is no
identity resolution and no name parameter in this variant. -/
def analyzeSimple (env : Env) (st0 : AnalyzerState)
    (coinId addr chain clientId : String) :
    AnalysisResult × AnalyzerState × List Event :=
  let t0 := st0.clock
  let errs := validateErrorsStrict coinId addr chain
  let tr1 := [Event.validateEv]
  if errs ≠ [] then
    (.err (validationMessage errs) (st0.clock - t0) st0.clock, st0, tr1)
  else
    let prev := (getAssoc st0.requestCounts clientId).getD []
    let rl := checkRateLimit st0.clock prev
    let st1 := { st0 with
      requestCounts := setAssoc st0.requestCounts clientId rl.2 }
    let tr2 := tr1 ++ [Event.rateCheckEv rl.1]
    if rl.1 = false then
      (.err "Rate limit exceeded" (st1.clock - t0) st1.clock, st1, tr2)
    else
      let key := cacheKey coinId addr chain
      match getAssoc st1.cache key with
      | some c =>
        (.ok { c with fromCache := true }, st1, tr2 ++ [Event.cacheHitEv])
      | none =>
        match aggregateSimple env st1.clock coinId addr chain with
        | (.error m, clk, trF) =>
          (.err m (clk - t0) clk, { st1 with clock := clk }, tr2 ++ trF)
        | (.ok (m, hd, dx), clk, trF) =>
          let r : OkResult :=
            { basic :=
                { name := coinId
                  price := m.current_price
                  price_change_24h := m.price_change_percentage_24h
                  market_cap := m.market_cap
                  volume_24h := m.volume_24h
                  contract_address := addr }
              scores := mkScoresJs m hd dx
              processingTime := clk - t0
              timestamp := clk
              fromCache := false }
          if env.encryptCache then
            (.ok r, { st1 with clock := clk, cache := setAssoc st1.cache key r },
             tr2 ++ trF)
          else (.ok r, { st1 with clock := clk }, tr2 ++ trF)

/-- The argument tuple of one analyze call of the part_001 variant. -/
structure CallArgs where
  coinId : String
  addr : String
  chain : String
  clientId : String
  coinName : String
  gap : ℕ
deriving DecidableEq

/-- A sequence of analyze calls against one shared analyzer instance,
each preceded by its gap of idle wall-clock time. -/
def runCalls (env : Env) (st : AnalyzerState) :
    List CallArgs → List AnalysisResult × AnalyzerState
  | [] => ([], st)
  | a :: rest =>
    let one := analyze env (tick a.gap st) a.coinId a.addr a.chain
      a.clientId a.coinName
    let more := runCalls env one.2.1 rest
    (one.1 :: more.1, more.2)

/-- The spread that a cache hit applies to a stored result (part_001
line 569): the record with fromCache set; an error value is untouched. -/
def markCached : AnalysisResult → AnalysisResult
  | .ok r => .ok { r with fromCache := true }
  | .err m p ts => .err m p ts

/-- The pipeline phase an event belongs to: identity resolution,
validation, admission, cache lookup and fetching, cache store. -/
def phase : Event → ℕ
  | .resolveSearch => 0
  | .resolveInfo => 0
  | .resolveLookup => 0
  | .validateEv => 1
  | .rateCheckEv _ => 2
  | .cacheHitEv => 3
  | .fetchMarket => 3
  | .fetchChain => 3
  | .fetchDex => 3
  | .cacheStoreEv => 4

/-- Every error-shaped result of one invocation carries the elapsed
wall-clock time from entry (t0) to exit and the exit-time timestamp. -/
def errorFieldsOk (t0 : ℕ) :
    AnalysisResult × AnalyzerState × List Event → Prop
  | (.ok _, _, _) => True
  | (.err _ p ts, st, _) => p = st.clock - t0 ∧ ts = st.clock

/-- What processingTime and timestamp actually hold, per outcome: on an
error or a fresh success they measure the invocation (entry t0 to exit);
on a cache hit the result is the stored record with fromCache set, so
its processingTime is the stored one, not this invocation's. -/
def timeSpec (t0 : ℕ) (pre : AnalyzerState) :
    AnalysisResult × AnalyzerState × List Event → Prop
  | (.err _ p ts, st, _) => p = st.clock - t0 ∧ ts = st.clock
  | (.ok r, st, _) =>
    match r.fromCache with
    | false => r.processingTime = st.clock - t0 ∧ r.timestamp = st.clock
    | true => ∃ k c, getAssoc pre.cache k = some c ∧
        r = { c with fromCache := true }

/-- A well-formed Ethereum (UNI) contract address used in concrete runs. -/
def ethAddr : String := "0x1f9840a85d5af5bf1d1762f925bdaddc4201f984"

/-- A sample market payload (the concrete scenario of the spec). -/
def sampleMarket : RawMarket := ⟨10, 5, 5000000000, 200000000, 1, 1⟩

/-- A sample holder distribution (holder count 1 keeps log10 exact). -/
def sampleHolder : HolderDist := ⟨20, 40, 60, 15, 30, 1⟩

/-- A sample liquidity snapshot. -/
def sampleDex : DexSnap := ⟨10000000, 0⟩

/-- A fully successful production environment: every upstream call
succeeds with the sample payloads, ENCRYPT_CACHE is set, and the three fetch
durations are 500, 100 and 200 milliseconds. -/
def envBase : Env where
  encryptCache := true
  search := fun _ => Except.error "Coin not found on CoinGecko"
  slugInfo := fun _ => Except.ok none
  contractLookup := fun _ _ => Except.ok "uniswap"
  market := fun _ => Except.ok sampleMarket
  ethHolders := fun _ => Except.ok sampleHolder
  solHolders := fun _ => Except.ok sampleHolder
  dex := fun _ => Except.ok sampleDex
  searchDur := 5
  infoDur := 5
  lookupDur := 5
  marketDur := 500
  chainDur := 100
  dexDur := 200

/-- envBase outside production: ENCRYPT_CACHE is false. -/
def envNoProd : Env := { envBase with encryptCache := false }

/-- envBase with a failing liquidity fetch only. -/
def envDexFails : Env :=
  { envBase with dex := fun _ => Except.error "Failed to fetch liquidity data" }

/-- envBase with a failing name search. -/
def envSearchFails : Env :=
  { envBase with search := fun _ => Except.error "CoinGecko search failed (500)" }

/-- The empty analyzer state at process start. -/
def st0 : AnalyzerState := ⟨[], [], [], 0⟩

/-- A state in which client c has 101 admission timestamps inside the
trailing window at clock 10. -/
def stOverLimit : AnalyzerState := ⟨[], [], [("c", List.replicate 101 5)], 10⟩

/-- The processingTime field of either result shape. -/
def resultProcessingTime : AnalysisResult → ℕ
  | .ok r => r.processingTime
  | .err _ p _ => p

/-- Two identical fully-resolved calls against the non-production
environment, the second after one second of idle time. -/
def sampleCalls : List CallArgs :=
  [⟨"uniswap", ethAddr, "eth", "default", "", 0⟩,
   ⟨"uniswap", ethAddr, "eth", "default", "", 1000⟩]

/-- C1: the claim fails on the code.  With a zero 24h volume (hence a
zero 7-day average volume, the derived field volume_24h / 7) the greed
score is NaN: 0/0 propagates through Math.min and Math.round unguarded.
With a zero market cap and positive volume the volatility score is
-Infinity.  Neither is an integer in [0,100], and the affected component
is not replaced by 0. -/
theorem c1_degenerate_scores :
    calculateGreedScore
      { current_price := 1, price_change_percentage_24h := 0,
        market_cap := 1000, volume_24h := 0, circulating_supply := 0,
        total_supply := 0, avg_volume_7d := 0, avg_price_7d := 1 }
      zeroHolder = JsNum.nan ∧
    calculateVolatility
      { current_price := 1, price_change_percentage_24h := 0,
        market_cap := 0, volume_24h := 5, circulating_supply := 0,
        total_supply := 0, avg_volume_7d := 1, avg_price_7d := 1 }
      = JsNum.ninf := by
  with_unfolding_all decide

/-- C5 counterexample: one client calls at times 1..101 (all inside one
minute); the first 100 are admitted and the 101st denied, as claimed.
But at time 60001 the sliding window has moved past the 1st call's
timestamp (inWindow is false for it) and a new call is still denied,
because the denied 101st call also recorded its timestamp and 100
timestamps remain in the window; the claim says it is admitted. -/
theorem c5_counterexample :
    (limiterRun ((List.range 101).map (fun n => n + 1))).1 =
      List.replicate 100 true ++ [false] ∧
    inWindow 60001 1 = false ∧
    (checkRateLimit 60001
      (limiterRun ((List.range 101).map (fun n => n + 1))).2).1 = false := by
  set_option maxRecDepth 10000 in decide

/-- C5 amended: with calls at times 1..101 inside one minute, the first
100 are admitted and the 101st is denied but still recorded; a later
call is admitted again only once at least two of the 101 recorded
timestamps have left the trailing window: at time 60001 (window past the
1st timestamp only) it is still denied, at time 60002 (window past the
2nd as well) it is admitted. -/
theorem c5_amended_scenario :
    (limiterRun ((List.range 101).map (fun n => n + 1))).1 =
      List.replicate 100 true ++ [false] ∧
    (limiterRun ((List.range 101).map (fun n => n + 1))).2.length = 101 ∧
    (checkRateLimit 60001
      (limiterRun ((List.range 101).map (fun n => n + 1))).2).1 = false ∧
    (checkRateLimit 60002
      (limiterRun ((List.range 101).map (fun n => n + 1))).2).1 = true := by
  set_option maxRecDepth 10000 in decide

/-- C3: the claim is right and src/api/analyze.js is wrong.  In that
variant (the one wired by src/index.js) CACHE_TTL is declared but never
read: a stored entry is never evicted and the lookup never checks its
age.  Concretely, in production mode a result stored at time 500 is
served unchanged, flagged fromCache, by the same call 600000 ms later
(twice the 300000 ms TTL), and the entry is still in the cache
afterwards. -/
theorem c3_stale_entry_served :
    isErrB (analyzeSimple envBase st0 "uniswap" ethAddr "eth" "default").1
      = false ∧
    (analyzeSimple envBase
        (tick 600000 (analyzeSimple envBase st0 "uniswap" ethAddr "eth"
          "default").2.1) "uniswap" ethAddr "eth" "default").1 =
      markCached (analyzeSimple envBase st0 "uniswap" ethAddr "eth"
        "default").1 ∧
    isFromCacheB (analyzeSimple envBase
        (tick 600000 (analyzeSimple envBase st0 "uniswap" ethAddr "eth"
          "default").2.1) "uniswap" ethAddr "eth" "default").1 = true ∧
    (analyzeSimple envBase
        (tick 600000 (analyzeSimple envBase st0 "uniswap" ethAddr "eth"
          "default").2.1) "uniswap" ethAddr "eth" "default").2.1.cache =
      (analyzeSimple envBase st0 "uniswap" ethAddr "eth"
        "default").2.1.cache := by
  refine ⟨?_, ?_, ?_, ?_⟩ <;> with_unfolding_all rfl

/-- C8 counterexample: with an incomplete identity (only a coin name)
and a client already over the rate limit, the part_001 analyze performs
the identity-resolution upstream call first: the trace of the run is
exactly the resolution fetch, no admission check ever happens, and the
caller sees the resolution failure message instead of a rate-limit
denial - although an admission check on this client would deny (last
conjunct).  This contradicts the claimed order (admission first, no
resolution work before admission). -/
theorem c8_counterexample :
    (analyze envSearchFails stOverLimit "" "" "" "c" "pepe").1 =
      AnalysisResult.err "CoinGecko search failed (500)" 5 15 ∧
    (analyze envSearchFails stOverLimit "" "" "" "c" "pepe").2.2 =
      [Event.resolveSearch] ∧
    (analyze envSearchFails stOverLimit "" "" "" "c" "pepe").2.2.contains
      (Event.rateCheckEv true) = false ∧
    (analyze envSearchFails stOverLimit "" "" "" "c" "pepe").2.2.contains
      (Event.rateCheckEv false) = false ∧
    (checkRateLimit stOverLimit.clock
      ((getAssoc stOverLimit.requestCounts "c").getD [])).1 = false := by
  set_option maxRecDepth 10000 in with_unfolding_all decide

/-- C9 counterexample: a first call in production takes 500 ms of fetch
wall-clock (the slowest fetcher of envBase) and stores its result with
processingTime 500.  An immediate second call hits the cache, enters and
exits at the same clock (elapsed 0), yet returns processingTime 500 -
the first call's stored value, not this invocation's wall-clock - and
that value is also not less than the 500 ms first external fetch. -/
theorem c9_counterexample :
    max envBase.marketDur (max envBase.chainDur envBase.dexDur) = 500 ∧
    isFromCacheB (analyze envBase
      (analyze envBase st0 "uniswap" ethAddr "eth" "default" "").2.1
      "uniswap" ethAddr "eth" "default" "").1 = true ∧
    resultProcessingTime (analyze envBase
      (analyze envBase st0 "uniswap" ethAddr "eth" "default" "").2.1
      "uniswap" ethAddr "eth" "default" "").1 = 500 ∧
    (analyze envBase
      (analyze envBase st0 "uniswap" ethAddr "eth" "default" "").2.1
      "uniswap" ethAddr "eth" "default" "").2.1.clock =
      (analyze envBase st0 "uniswap" ethAddr "eth" "default" "").2.1.clock ∧
    ¬ (resultProcessingTime (analyze envBase
      (analyze envBase st0 "uniswap" ethAddr "eth" "default" "").2.1
      "uniswap" ethAddr "eth" "default" "").1 = 0) ∧
    ¬ (resultProcessingTime (analyze envBase
      (analyze envBase st0 "uniswap" ethAddr "eth" "default" "").2.1
      "uniswap" ethAddr "eth" "default" "").1 < 500) := by
  refine ⟨rfl, ?_, ?_, ?_, ?_, ?_⟩ <;> with_unfolding_all decide

/-- C4 counterexample: outside production (ENCRYPT_CACHE false, the
default NODE_ENV) two immediately consecutive successful calls on the
same valid triple both succeed, yet the second is not flagged fromCache
and the cache is still empty afterwards - the claim promises
fromCache=true on the second call. -/
theorem c4_counterexample :
    envNoProd.encryptCache = false ∧
    isErrB (analyze envNoProd st0 "uniswap" ethAddr "eth" "default" "").1
      = false ∧
    isErrB (analyze envNoProd
      (analyze envNoProd st0 "uniswap" ethAddr "eth" "default" "").2.1
      "uniswap" ethAddr "eth" "default" "").1 = false ∧
    isFromCacheB (analyze envNoProd
      (analyze envNoProd st0 "uniswap" ethAddr "eth" "default" "").2.1
      "uniswap" ethAddr "eth" "default" "").1 = false ∧
    (analyze envNoProd
      (analyze envNoProd st0 "uniswap" ethAddr "eth" "default" "").2.1
      "uniswap" ethAddr "eth" "default" "").2.1.cache = [] := by
  refine ⟨rfl, ?_, ?_, ?_, ?_⟩ <;> with_unfolding_all decide
/-- resolveStep1 touches only the clock of the state. -/
theorem resolveStep1_state (env : Env) (st : AnalyzerState)
    (a d : String) :
    (resolveStep1 env st a d).2.1.cache = st.cache ∧
    (resolveStep1 env st a d).2.1.timers = st.timers ∧
    (resolveStep1 env st a d).2.1.requestCounts = st.requestCounts := by
  unfold resolveStep1
  repeat' split
  all_goals simp [tick]

/-- resolveStep2 touches only the clock of the state. -/
theorem resolveStep2_state (env : Env) (st : AnalyzerState)
    (a b c : String) :
    (resolveStep2 env st a b c).2.1.cache = st.cache ∧
    (resolveStep2 env st a b c).2.1.timers = st.timers ∧
    (resolveStep2 env st a b c).2.1.requestCounts = st.requestCounts := by
  unfold resolveStep2
  repeat' split
  all_goals simp [tick]

/-- resolveStep3 touches only the clock of the state. -/
theorem resolveStep3_state (env : Env) (st : AnalyzerState)
    (a b c : String) :
    (resolveStep3 env st a b c).2.1.cache = st.cache ∧
    (resolveStep3 env st a b c).2.1.timers = st.timers ∧
    (resolveStep3 env st a b c).2.1.requestCounts = st.requestCounts := by
  unfold resolveStep3
  repeat' split
  all_goals simp [tick]

/-- Every event of resolveStep1 is a resolution event. -/
theorem resolveStep1_phase (env : Env) (st : AnalyzerState) (a d : String) :
    ∀ e ∈ (resolveStep1 env st a d).2.2, phase e = 0 := by
  unfold resolveStep1
  repeat' split
  all_goals intro e he
  all_goals simp_all [phase]

/-- Every event of resolveStep2 is a resolution event. -/
theorem resolveStep2_phase (env : Env) (st : AnalyzerState) (a b c : String) :
    ∀ e ∈ (resolveStep2 env st a b c).2.2, phase e = 0 := by
  unfold resolveStep2
  repeat' split
  all_goals intro e he
  all_goals simp_all [phase]

/-- Every event of resolveStep3 is a resolution event. -/
theorem resolveStep3_phase (env : Env) (st : AnalyzerState) (a b c : String) :
    ∀ e ∈ (resolveStep3 env st a b c).2.2, phase e = 0 := by
  unfold resolveStep3
  repeat' split
  all_goals intro e he
  all_goals simp_all [phase]

/-- Identity resolution never touches the result cache. -/
theorem resolveIdentity_cache (env : Env) (st : AnalyzerState)
    (a b c d : String) :
    (resolveIdentity env st a b c d).2.1.cache = st.cache := by
  unfold resolveIdentity
  rcases h1 : resolveStep1 env st a d with ⟨r1, st1, tr1⟩
  have e1 := resolveStep1_state env st a d
  rw [h1] at e1
  cases r1 with
  | error m => simpa using e1.1
  | ok cid1 =>
    dsimp only
    rcases h2 : resolveStep2 env st1 cid1 b c with ⟨r2, st2, tr2⟩
    have e2 := resolveStep2_state env st1 cid1 b c
    rw [h2] at e2
    cases r2 with
    | error m => simp_all
    | ok pr =>
      obtain ⟨addr1, chain1⟩ := pr
      dsimp only
      rcases h3 : resolveStep3 env st2 cid1 addr1 chain1 with ⟨r3, st3, tr3⟩
      have e3 := resolveStep3_state env st2 cid1 addr1 chain1
      rw [h3] at e3
      cases r3 with
      | error m => simp_all
      | ok cid2 => simp_all

/-- Every event of identity resolution is a resolution event. -/
theorem resolveIdentity_phase (env : Env) (st : AnalyzerState)
    (a b c d : String) :
    ∀ e ∈ (resolveIdentity env st a b c d).2.2, phase e = 0 := by
  unfold resolveIdentity
  rcases h1 : resolveStep1 env st a d with ⟨r1, st1, tr1⟩
  have p1 := resolveStep1_phase env st a d
  rw [h1] at p1
  cases r1 with
  | error m => simpa using p1
  | ok cid1 =>
    dsimp only
    rcases h2 : resolveStep2 env st1 cid1 b c with ⟨r2, st2, tr2⟩
    have p2 := resolveStep2_phase env st1 cid1 b c
    rw [h2] at p2
    cases r2 with
    | error m =>
      intro e he
      simp only [List.mem_append] at he
      rcases he with he | he
      · exact p1 e he
      · exact p2 e he
    | ok pr =>
      obtain ⟨addr1, chain1⟩ := pr
      dsimp only
      rcases h3 : resolveStep3 env st2 cid1 addr1 chain1 with ⟨r3, st3, tr3⟩
      have p3 := resolveStep3_phase env st2 cid1 addr1 chain1
      rw [h3] at p3
      cases r3 with
      | error m =>
        intro e he
        simp only [List.mem_append] at he
        rcases he with (he | he) | he
        · exact p1 e he
        · exact p2 e he
        · exact p3 e he
      | ok cid2 =>
        intro e he
        simp only [List.mem_append] at he
        rcases he with (he | he) | he
        · exact p1 e he
        · exact p2 e he
        · exact p3 e he

/-- Every event of the fetch phase is a fetch event. -/
theorem aggregate_phase (env : Env) (clk : ℕ) (a b c : String) :
    ∀ e ∈ (aggregate env clk a b c).2.2, phase e = 3 := by
  unfold aggregate
  repeat' split
  all_goals intro e he
  all_goals fin_cases he <;> rfl

/-- A trace whose events all sit in one phase is phase-monotone. -/
theorem pairwise_phase_const (l : List Event) (k : ℕ)
    (h : ∀ e ∈ l, phase e = k) :
    l.Pairwise (fun a b => phase a ≤ phase b) :=
  List.pairwise_of_forall_mem_list (fun a ha b hb => by rw [h a ha, h b hb])

/-- Concatenating phase-monotone traces separated by a bound stays
phase-monotone. -/
theorem phase_append_pairwise (l1 l2 : List Event) (k : ℕ)
    (p1 : l1.Pairwise (fun a b => phase a ≤ phase b))
    (p2 : l2.Pairwise (fun a b => phase a ≤ phase b))
    (ub : ∀ e ∈ l1, phase e ≤ k) (lb : ∀ e ∈ l2, k ≤ phase e) :
    (l1 ++ l2).Pairwise (fun a b => phase a ≤ phase b) :=
  List.pairwise_append.mpr
    ⟨p1, p2, fun a ha b hb => le_trans (ub a ha) (lb b hb)⟩

/-- Prepending resolution events (phase 0) preserves phase
monotonicity. -/
theorem pairwise_phase_after_resolve (tr1 rest : List Event)
    (h1 : ∀ e ∈ tr1, phase e = 0)
    (hr : rest.Pairwise (fun a b => phase a ≤ phase b)) :
    (tr1 ++ rest).Pairwise (fun a b => phase a ≤ phase b) :=
  phase_append_pairwise tr1 rest 0
    (pairwise_phase_const tr1 0 h1) hr
    (fun e he => le_of_eq (h1 e he)) (fun _ _ => Nat.zero_le _)

/-- The validate-admit-fetch-store tail of a run is phase-monotone. -/
theorem pairwise_phase_run_tail (trF tail : List Event) (b : Bool)
    (hF : ∀ e ∈ trF, phase e = 3)
    (htail : ∀ e ∈ tail, phase e = 4) :
    (Event.validateEv :: Event.rateCheckEv b :: (trF ++ tail)).Pairwise
      (fun a b => phase a ≤ phase b) := by
  refine List.Pairwise.cons ?_ (List.Pairwise.cons ?_ ?_)
  · intro e he
    rcases List.mem_cons.mp he with rfl | he
    · simp [phase]
    · rcases List.mem_append.mp he with h | h
      · rw [hF e h]; simp [phase]
      · rw [htail e h]; simp [phase]
  · intro e he
    rcases List.mem_append.mp he with h | h
    · rw [hF e h]; simp [phase]
    · rw [htail e h]; simp [phase]
  · exact phase_append_pairwise trF tail 3
      (pairwise_phase_const trF 3 hF) (pairwise_phase_const tail 4 htail)
      (fun e he => le_of_eq (hF e he))
      (fun e he => by rw [htail e he]; omega)

/-- C8 amended: within every part_001 analyze invocation the observable
steps are ordered by pipeline phase - identity resolution first (with
its upstream calls), then validation, then the rate-limit admission
check, then cache lookup and fetches, then the cache store.  In
particular resolution precedes admission, contrary to the claimed
order; the counterexample exhibits an over-limit client whose
resolution fetch still happened. -/
theorem c8_phase_order (env : Env) (st : AnalyzerState)
    (cid addr ch clientId coinName : String) :
    ((analyze env st cid addr ch clientId coinName).2.2).Pairwise
      (fun a b => phase a ≤ phase b) := by
  unfold analyze
  dsimp only
  rcases hres : resolveIdentity env (fireTimers st) cid addr ch coinName with
    ⟨res, st1, tr1⟩
  have p1 : ∀ e ∈ tr1, phase e = 0 := by
    have h := resolveIdentity_phase env (fireTimers st) cid addr ch coinName
    rw [hres] at h
    exact h
  cases res with
  | error m => exact pairwise_phase_const tr1 0 p1
  | ok trip =>
    obtain ⟨cid1, addr1, ch1⟩ := trip
    dsimp only
    rcases hagg : aggregate env st1.clock cid1 addr1 ch1 with ⟨ares, clk, trF⟩
    have pF : ∀ e ∈ trF, phase e = 3 := by
      have h := aggregate_phase env st1.clock cid1 addr1 ch1
      rw [hagg] at h
      exact h
    split
    all_goals split
    all_goals try
      exact pairwise_phase_after_resolve tr1 _ p1
        (by simp [List.pairwise_cons, phase])
    all_goals split
    all_goals try
      (simp only [List.append_assoc, List.cons_append, List.nil_append]
       exact pairwise_phase_after_resolve tr1 _ p1
         (by simp [List.pairwise_cons, phase]))
    all_goals split
    all_goals try
      (simp only [List.append_assoc, List.cons_append, List.nil_append]
       exact pairwise_phase_after_resolve tr1 _ p1
         (by simp [List.pairwise_cons, phase]))
    all_goals cases ares with
      | error m =>
        simp only [List.append_assoc, List.cons_append, List.nil_append]
        exact pairwise_phase_after_resolve tr1 _ p1
          (by simpa using pairwise_phase_run_tail trF [] _ pF (by simp))
      | ok snaps =>
        obtain ⟨ms, hd, dx⟩ := snaps
        dsimp only
        split
        all_goals simp only [List.append_assoc, List.cons_append,
          List.nil_append]
        · exact pairwise_phase_after_resolve tr1 _ p1
            (pairwise_phase_run_tail trF [Event.cacheStoreEv] _ pF
              (by simp [phase]))
        · exact pairwise_phase_after_resolve tr1 _ p1
            (by simpa using pairwise_phase_run_tail trF [] _ pF (by simp))

/-- C9 amended: on an error or a fresh success, processingTime is the
elapsed wall-clock from entry to exit of that invocation and timestamp
is the exit clock; but on a cache hit the result is the stored record
with fromCache set, so its processingTime is the stored first-call
value, not this invocation's elapsed time (the counterexample shows the
two differ, 500 versus 0). -/
theorem c9_time_spec (env : Env) (st : AnalyzerState)
    (cid addr ch clientId coinName : String) :
    timeSpec (fireTimers st).clock (fireTimers st)
      (analyze env st cid addr ch clientId coinName) := by
  unfold analyze
  dsimp only
  rcases hres : resolveIdentity env (fireTimers st) cid addr ch coinName with
    ⟨res, st1, tr1⟩
  have hcache : st1.cache = (fireTimers st).cache := by
    have h := resolveIdentity_cache env (fireTimers st) cid addr ch coinName
    rw [hres] at h
    exact h
  cases res with
  | error m => simp [timeSpec]
  | ok trip =>
    obtain ⟨cid1, addr1, ch1⟩ := trip
    dsimp only
    split
    all_goals split
    all_goals try (simp [timeSpec]; done)
    all_goals split
    all_goals try (simp [timeSpec]; done)
    all_goals split
    all_goals first
      | (rename_i c heq
         simp only [timeSpec]
         exact ⟨cacheKey cid1 addr1 ch1, c, by rw [← hcache]; exact heq, rfl⟩)
      | (rcases hagg : aggregate env st1.clock cid1 addr1 ch1 with
          ⟨ares, clk, trF⟩
         cases ares with
         | error m => simp [timeSpec]
         | ok snaps =>
           obtain ⟨ms, hd, dx⟩ := snaps
           dsimp only
           split <;> simp [timeSpec])

/-- Resolution is the identity on an already-complete triple. -/
theorem resolveIdentity_complete (env : Env) (st : AnalyzerState)
    (cid addr ch coinName : String) (hcid : cid ≠ "") (haddr : addr ≠ "")
    (hch : ch ≠ "") :
    resolveIdentity env st cid addr ch coinName =
      (.ok (cid, addr, ch), st, []) := by
  simp [resolveIdentity, resolveStep1, resolveStep2, resolveStep3,
    hcid, haddr, hch]

/-- Firing timers on a state with no timers and empty cache is the
identity. -/
theorem fireTimers_fresh (st : AnalyzerState) (hcache : st.cache = [])
    (htimers : st.timers = []) :
    fireTimers st = st := by
  cases st
  simp_all [fireTimers]

/-- C6: aggregation is fail-fast with no partial results: if the
liquidity fetch fails while the market and holder fetches succeed, the
part_001 analyze returns the error-shaped result carrying that failure
message and nothing is cached for the invocation. -/
theorem c6_fail_fast (env : Env) (st : AnalyzerState)
    (cid addr ch clientId coinName e : String) (mraw : RawMarket)
    (hd : HolderDist)
    (hcid : cid ≠ "") (haddr : addr ≠ "") (hch : ch ≠ "")
    (hval : validateErrors cid addr ch = [])
    (hm : env.market cid = .ok mraw)
    (hh : chainFetch env ch addr = .ok hd)
    (hdex : env.dex addr = .error e)
    (hcache : st.cache = []) (htimers : st.timers = [])
    (hcounts : st.requestCounts = []) :
    ∃ p ts st' tr,
      analyze env st cid addr ch clientId coinName = (.err e p ts, st', tr) ∧
      st'.cache = [] := by
  unfold analyze
  dsimp only
  rw [fireTimers_fresh st hcache htimers,
    resolveIdentity_complete env st cid addr ch coinName hcid haddr hch]
  dsimp only
  simp [haddr, hch, hval, aggregate, hm, hh, hdex, getAssoc, hcounts,
    checkRateLimit, hcache]
  exact ⟨_, _, _, ⟨⟨rfl, rfl⟩, rfl⟩, rfl⟩

/-- A client with at most 99 stored timestamps is always admitted. -/
theorem checkRateLimit_small (now : ℕ) (ts : List ℕ) (h : ts.length ≤ 99) :
    (checkRateLimit now ts).1 = true := by
  unfold checkRateLimit
  have hlen : (ts.filter (inWindow now)).length ≤ ts.length :=
    List.length_filter_le _ _
  simp only [List.length_append, List.length_singleton]
  exact decide_eq_true (by omega)

/-- A fully-resolved call on a fresh production state succeeds and
stores its result under the triple key, scheduling the TTL timer. -/
theorem analyze_fresh_store (env : Env) (st : AnalyzerState)
    (cid addr ch clientId coinName : String) (mraw : RawMarket)
    (hd : HolderDist) (dx : DexSnap)
    (hcid : cid ≠ "") (haddr : addr ≠ "") (hch : ch ≠ "")
    (hval : validateErrors cid addr ch = [])
    (hm : env.market cid = .ok mraw)
    (hh : chainFetch env ch addr = .ok hd)
    (hdex : env.dex addr = .ok dx)
    (henc : env.encryptCache = true)
    (hcache : st.cache = []) (htimers : st.timers = [])
    (hcounts : st.requestCounts = []) :
    ∃ r1 tr1,
      analyze env st cid addr ch clientId coinName =
        (.ok r1,
          { cache := [(cacheKey cid addr ch, r1)],
            timers := [(st.clock +
              max env.marketDur (max env.chainDur env.dexDur) + 300000,
              cacheKey cid addr ch)],
            requestCounts := [(clientId, [st.clock])],
            clock := st.clock +
              max env.marketDur (max env.chainDur env.dexDur) },
          tr1) ∧ r1.fromCache = false := by
  unfold analyze
  dsimp only
  rw [fireTimers_fresh st hcache htimers,
    resolveIdentity_complete env st cid addr ch coinName hcid haddr hch]
  dsimp only
  simp [haddr, hch, hval, aggregate, hm, hh, hdex, getAssoc, setAssoc,
    hcounts, checkRateLimit, hcache, htimers, henc]

/-- A call whose key is cached (and whose client window is small) is
answered from the cache with fromCache set. -/
theorem analyze_hit (env : Env) (st : AnalyzerState)
    (cid addr ch clientId coinName : String) (r : OkResult)
    (hcid : cid ≠ "") (haddr : addr ≠ "") (hch : ch ≠ "")
    (hval : validateErrors cid addr ch = [])
    (hfound : getAssoc (fireTimers st).cache (cacheKey cid addr ch) = some r)
    (hsmall :
      ((getAssoc (fireTimers st).requestCounts clientId).getD []).length ≤ 99) :
    ∃ st' tr, analyze env st cid addr ch clientId coinName =
      (.ok { r with fromCache := true }, st', tr) := by
  unfold analyze
  dsimp only
  rw [resolveIdentity_complete env (fireTimers st) cid addr ch coinName hcid
    haddr hch]
  dsimp only
  have hadm := checkRateLimit_small (fireTimers st).clock
    ((getAssoc (fireTimers st).requestCounts clientId).getD []) hsmall
  simp [haddr, hch, hval, hadm, hfound]

/-- C4 amended: when ENCRYPT_CACHE is true (NODE_ENV production), two
successful analyze calls resolving to the same valid triple within the
TTL window, against a fresh analyzer, return identical scores and basic
blocks and the second call's result is flagged fromCache=true.  (Outside
production the counterexample shows the second call is never flagged.) -/
theorem c4_cached_call (env : Env) (st : AnalyzerState)
    (cid addr ch clientId coinName : String) (mraw : RawMarket)
    (hd : HolderDist) (dx : DexSnap) (g : ℕ)
    (hcid : cid ≠ "") (haddr : addr ≠ "") (hch : ch ≠ "")
    (hval : validateErrors cid addr ch = [])
    (hm : env.market cid = .ok mraw)
    (hh : chainFetch env ch addr = .ok hd)
    (hdex : env.dex addr = .ok dx)
    (henc : env.encryptCache = true)
    (hcache : st.cache = []) (htimers : st.timers = [])
    (hcounts : st.requestCounts = [])
    (hg : g < 300000) :
    ∃ r1 st1 tr1 r2 st2 tr2,
      analyze env st cid addr ch clientId coinName = (.ok r1, st1, tr1) ∧
      analyze env (tick g st1) cid addr ch clientId coinName =
        (.ok r2, st2, tr2) ∧
      r1.fromCache = false ∧ r2.fromCache = true ∧
      r2.scores = r1.scores ∧ r2.basic = r1.basic := by
  obtain ⟨r1, tr1, h1, hfc⟩ := analyze_fresh_store env st cid addr ch clientId coinName
    mraw hd dx hcid haddr hch hval hm hh hdex henc hcache htimers hcounts
  have hdue : ¬ (st.clock + max env.marketDur (max env.chainDur env.dexDur)
      + 300000 ≤ st.clock + max env.marketDur (max env.chainDur env.dexDur)
      + g) := by omega
  have hft : fireTimers (tick g
      { cache := [(cacheKey cid addr ch, r1)],
        timers := [(st.clock +
          max env.marketDur (max env.chainDur env.dexDur) + 300000,
          cacheKey cid addr ch)],
        requestCounts := [(clientId, [st.clock])],
        clock := st.clock +
          max env.marketDur (max env.chainDur env.dexDur) }) =
      { cache := [(cacheKey cid addr ch, r1)],
        timers := [(st.clock +
          max env.marketDur (max env.chainDur env.dexDur) + 300000,
          cacheKey cid addr ch)],
        requestCounts := [(clientId, [st.clock])],
        clock := st.clock +
          max env.marketDur (max env.chainDur env.dexDur) + g } := by
    simp [fireTimers, tick, hdue, Nat.add_assoc]
    exact hg
  obtain ⟨st2, tr2, h2⟩ := analyze_hit env (tick g
      { cache := [(cacheKey cid addr ch, r1)],
        timers := [(st.clock +
          max env.marketDur (max env.chainDur env.dexDur) + 300000,
          cacheKey cid addr ch)],
        requestCounts := [(clientId, [st.clock])],
        clock := st.clock +
          max env.marketDur (max env.chainDur env.dexDur) })
      cid addr ch clientId coinName r1 hcid haddr hch hval
      (by rw [hft]; simp [getAssoc])
      (by rw [hft]; simp [getAssoc])
  exact ⟨r1, _, tr1, { r1 with fromCache := true }, st2, tr2, h1, h2, hfc,
    rfl, rfl, rfl⟩

/-- One analyze call outside production leaves an empty cache empty and
never answers from the cache. -/
theorem analyze_no_store (env : Env) (st : AnalyzerState)
    (cid addr ch clientId coinName : String)
    (henc : env.encryptCache = false) (hcache : st.cache = []) :
    (analyze env st cid addr ch clientId coinName).2.1.cache = [] ∧
    isFromCacheB (analyze env st cid addr ch clientId coinName).1 = false := by
  unfold analyze
  dsimp only
  rcases hres : resolveIdentity env (fireTimers st) cid addr ch coinName with
    ⟨res, st1, tr1⟩
  have hc1 : st1.cache = [] := by
    have h := resolveIdentity_cache env (fireTimers st) cid addr ch coinName
    rw [hres] at h
    rw [h]
    simp [fireTimers, hcache]
  cases res with
  | error m => simp [isFromCacheB, hc1]
  | ok trip =>
    obtain ⟨cid1, addr1, ch1⟩ := trip
    dsimp only
    repeat' split
    all_goals simp_all [isFromCacheB, getAssoc, henc]

/-- C10: when ENCRYPT_CACHE is false, any sequence of analyze calls
starting from an empty cache leaves the cache empty for the whole
process lifetime, and no call is ever answered with fromCache=true. -/
theorem c10_no_cache_without_flag (env : Env) (st : AnalyzerState)
    (calls : List CallArgs)
    (henc : env.encryptCache = false) (hcache : st.cache = []) :
    (runCalls env st calls).2.cache = [] ∧
    ∀ r ∈ (runCalls env st calls).1, isFromCacheB r = false := by
  induction calls generalizing st with
  | nil =>
    refine ⟨hcache, ?_⟩
    intro r hr
    simp [runCalls] at hr
  | cons a rest ih =>
    have hstep := analyze_no_store env (tick a.gap st) a.coinId a.addr
      a.chain a.clientId a.coinName henc (by simpa [tick] using hcache)
    unfold runCalls
    dsimp only
    refine ⟨(ih _ hstep.1).1, ?_⟩
    intro r hr
    rcases List.mem_cons.mp hr with rfl | hr
    · exact hstep.2
    · exact (ih _ hstep.1).2 r hr

/-- Witness for c6_fail_fast at a concrete environment and triple. -/
theorem c6_witness :
    validateErrors "uniswap" ethAddr "eth" = [] ∧
    envDexFails.dex ethAddr = .error "Failed to fetch liquidity data" ∧
    (∃ p ts st' tr,
      analyze envDexFails st0 "uniswap" ethAddr "eth" "default" "" =
        (.err "Failed to fetch liquidity data" p ts, st', tr) ∧
      st'.cache = []) :=
  ⟨by with_unfolding_all decide, rfl,
   c6_fail_fast envDexFails st0 "uniswap" ethAddr "eth" "default" ""
     "Failed to fetch liquidity data" sampleMarket sampleHolder
     (by decide) (by with_unfolding_all decide) (by decide)
     (by with_unfolding_all decide) rfl rfl rfl rfl rfl rfl⟩

/-- Witness for c4_cached_call at a concrete environment and triple. -/
theorem c4_witness :
    envBase.encryptCache = true ∧ (1000 : ℕ) < 300000 ∧
    validateErrors "uniswap" ethAddr "eth" = [] ∧
    (∃ r1 st1 tr1 r2 st2 tr2,
      analyze envBase st0 "uniswap" ethAddr "eth" "default" "" =
        (.ok r1, st1, tr1) ∧
      analyze envBase (tick 1000 st1) "uniswap" ethAddr "eth" "default" "" =
        (.ok r2, st2, tr2) ∧
      r1.fromCache = false ∧ r2.fromCache = true ∧
      r2.scores = r1.scores ∧ r2.basic = r1.basic) :=
  ⟨rfl, by decide, by with_unfolding_all decide,
   c4_cached_call envBase st0 "uniswap" ethAddr "eth" "default" ""
     sampleMarket sampleHolder sampleDex 1000
     (by decide) (by with_unfolding_all decide) (by decide)
     (by with_unfolding_all decide) rfl rfl rfl rfl rfl rfl rfl
     (by decide)⟩

/-- Witness for c10_no_cache_without_flag on two concrete calls. -/
theorem c10_witness :
    envNoProd.encryptCache = false ∧ st0.cache = [] ∧
    (runCalls envNoProd st0 sampleCalls).2.cache = [] ∧
    ∀ r ∈ (runCalls envNoProd st0 sampleCalls).1, isFromCacheB r = false :=
  ⟨rfl, rfl,
   (c10_no_cache_without_flag envNoProd st0 sampleCalls rfl rfl).1,
   (c10_no_cache_without_flag envNoProd st0 sampleCalls rfl rfl).2⟩

/-- C2: analyze never raises - it is a total function into
AnalysisResult, every internal failure path (resolution, validation,
rate-limit denial, any upstream fetch failure) is caught into the
error shape, and every error value carries its message together with
processingTime equal to the elapsed wall-clock from entry to exit and
the exit-time timestamp. -/
theorem c2_analyze_never_raises (env : Env) (st : AnalyzerState)
    (cid addr ch clientId coinName : String) :
    errorFieldsOk (fireTimers st).clock
      (analyze env st cid addr ch clientId coinName) := by
  unfold analyze
  dsimp only
  rcases hres : resolveIdentity env (fireTimers st) cid addr ch coinName with
    ⟨res, st1, tr1⟩
  cases res with
  | error m => simp [errorFieldsOk]
  | ok trip =>
    obtain ⟨cid1, addr1, ch1⟩ := trip
    repeat' split
    all_goals simp_all [errorFieldsOk]

/-- C7: in the part_001 fetch phase the market fetcher is launched on
every path; the holder/chain fetcher and the liquidity fetcher are
launched exactly when both a contract address and a chain are present
(hence only when a contract address is present); and with no contract
address the aggregation returns the market snapshot with the
zero-valued holder and liquidity snapshots, issuing no other request. -/
theorem c7_conditional_fetch (env : Env) (clk : ℕ) (cid addr ch : String) :
    (aggregate env clk cid addr ch).2.2.contains Event.fetchMarket = true ∧
    (aggregate env clk cid addr ch).2.2.contains Event.fetchChain =
      (decide (addr ≠ "") && decide (ch ≠ "")) ∧
    (aggregate env clk cid addr ch).2.2.contains Event.fetchDex =
      (decide (addr ≠ "") && decide (ch ≠ "")) ∧
    aggregate env clk cid "" ch =
      ((env.market cid).map (fun m => (mkMarket m, zeroHolder, zeroDex)),
        clk + env.marketDur, [Event.fetchMarket]) := by
  unfold aggregate
  refine ⟨?_, ?_, ?_, ?_⟩
  · split
    · cases env.market cid <;> cases chainFetch env ch addr <;>
        cases env.dex addr <;> rfl
    · cases env.market cid <;> rfl
  · split
    · rename_i h
      simp only [h.1, h.2, decide_not]
      cases env.market cid <;> cases chainFetch env ch addr <;>
        cases env.dex addr <;> rfl
    · rename_i h
      rw [Decidable.not_and_iff_or_not] at h
      have hb : (decide (addr ≠ "") && decide (ch ≠ "")) = false := by
        rcases h with h | h <;> simp [h]
      rw [hb]
      cases env.market cid <;> rfl
  · split
    · rename_i h
      simp only [h.1, h.2, decide_not]
      cases env.market cid <;> cases chainFetch env ch addr <;>
        cases env.dex addr <;> rfl
    · rename_i h
      rw [Decidable.not_and_iff_or_not] at h
      have hb : (decide (addr ≠ "") && decide (ch ≠ "")) = false := by
        rcases h with h | h <;> simp [h]
      rw [hb]
      cases env.market cid <;> rfl
  · simp only [ne_eq, not_true_eq_false, false_and, if_false]
    cases hm : env.market cid <;> simp [Except.map, hm]
